import Mathlib

/-
Verification of the QuizAppBE backend: a FastAPI proxy over a public trivia
API (src/backend/app.py, src/backend/utils.py) together with two standalone
AWS helper classes, `S3Service` (src/backend/aws_integration/ddb_integration.py)
and `DynamoDbService` (src/backend/aws_integration/s3_integration.py).

The embedding is shallow: Python dicts with string keys become association
lists `List (String × _)` in insertion order, vendor SDK calls (requests,
boto3, gzip, csv) become explicit environment parameters (functions from
request index / request data to responses), and exceptions become `Option`
results. Every definition is translated from the corresponding source
function; lemmas and the claim theorems follow.
-/

set_option autoImplicit false
set_option linter.unusedVariables false

namespace QuizAppBE

/-! ## HTTP layer (src/backend/app.py and src/backend/utils.py) -/

/-- A Python value that can appear in the `quizz_app_params` dict built by
`get_questions` in app.py: the `amount` int (possibly `None` for an empty
`?amount=` query value) and the `category` / `difficulty` strings. -/
inductive PValue where
  | int : Int → PValue
  | str : String → PValue
  | pynone : PValue
deriving DecidableEq

/-- Python dict lookup `d[key]` on an association list, returning `none`
when the key is absent. -/
def lookupStr (d : List (String × PValue)) (key : String) : Option PValue :=
  match d with
  | [] => Option.none
  | (k, v) :: rest => if k = key then some v else lookupStr rest key

/-- The `quizz_app_params` dict built by `get_questions` (app.py lines 41-46):
`{"amount": amount}`, then `category` is added only when `if category:` is
truthy (a supplied, non-empty string), and likewise `difficulty`. -/
def quizzAppParams (amount : Option Int) (category difficulty : Option String) :
    List (String × PValue) :=
  let base := [("amount", match amount with
    | some n => PValue.int n
    | Option.none => PValue.pynone)]
  let withCat := match category with
    | some c => if c ≠ "" then base ++ [("category", PValue.str c)] else base
    | Option.none => base
  match difficulty with
  | some d => if d ≠ "" then withCat ++ [("difficulty", PValue.str d)] else withCat
  | Option.none => withCat

/-- `get_questions_from_api` (utils.py lines 4-11): issues
`requests.get(url, params=params)` and returns `response.json()`. The
upstream trivia API is the environment `api`, mapping the forwarded
query-parameter dict to the JSON body it answers with. -/
def get_questions_from_api {J : Type} (api : List (String × PValue) → J)
    (params : List (String × PValue)) : J :=
  api params

/-- The `/get_questions` route handler (app.py lines 34-48): builds
`quizz_app_params` and returns `get_questions_from_api(params=quizz_app_params)`
unchanged. -/
def get_questions {J : Type} (api : List (String × PValue) → J)
    (amount : Option Int) (category difficulty : Option String) : J :=
  get_questions_from_api api ( quizzAppParams amount category difficulty)

/-! ## Batch splitting

Both `batch_upsert` (s3_integration.py line 144) and `transaction_write_items`
(line 192) split a list with the Python idiom
`[l[i : i + n] for i in range(0, len(l), n)]`. -/

/-- `chunksOf n l` is `[l[i : i + n] for i in range(0, len(l), n)]`.
(`n = 0` is unreachable in the source, where `n` is the literal 25 or 100;
Python `range` would reject step 0.) -/
def chunksOf {α : Type} : Nat → List α → List (List α)
  | 0, _ => []
  | _, [] => []
  | n + 1, x :: xs => ((x :: xs).take (n + 1)) :: chunksOf (n + 1) (xs.drop n)
termination_by _ l => l.length
decreasing_by
  simp only [List.length_drop, List.length_cons]
  omega

theorem chunksOf_nil {α : Type} (n : Nat) : chunksOf n ([] : List α) = [] := by
  cases n with
  | zero => rw [chunksOf]
  | succ k => rw [chunksOf]; simp

theorem chunksOf_cons {α : Type} (n : Nat) (x : α) (xs : List α) :
    chunksOf (n + 1) (x :: xs) =
      ((x :: xs).take (n + 1)) :: chunksOf (n + 1) ((x :: xs).drop (n + 1)) := by
  rw [chunksOf]
  rfl

theorem chunksOf_flatten {α : Type} (n : Nat) (hn : 0 < n) (l : List α) :
    (chunksOf n l).flatten = l := by
  obtain ⟨k, rfl⟩ : ∃ k, n = k + 1 := ⟨n - 1, by omega⟩
  have H : ∀ (m : Nat) (l : List α), l.length ≤ m → (chunksOf (k + 1) l).flatten = l := by
    intro m
    induction m with
    | zero =>
      intro l hl
      have : l = [] := by cases l <;> simp_all
      subst this
      simp [chunksOf_nil]
    | succ m ih =>
      intro l hl
      cases l with
      | nil => simp [chunksOf_nil]
      | cons x xs =>
        rw [chunksOf_cons, List.flatten_cons]
        rw [ih ((x :: xs).drop (k + 1))
          (by simp only [List.length_drop, List.length_cons] at *; omega)]
        exact List.take_append_drop (k + 1) (x :: xs)
  exact H l.length l le_rfl

theorem chunksOf_mem_length {α : Type} (n : Nat) (hn : 0 < n) (l : List α) :
    ∀ c ∈ chunksOf n l, c.length ≤ n ∧ c ≠ [] := by
  obtain ⟨k, rfl⟩ : ∃ k, n = k + 1 := ⟨n - 1, by omega⟩
  have H : ∀ (m : Nat) (l : List α), l.length ≤ m →
      ∀ c ∈ chunksOf (k + 1) l, c.length ≤ k + 1 ∧ c ≠ [] := by
    intro m
    induction m with
    | zero =>
      intro l hl c hc
      have : l = [] := by cases l <;> simp_all
      subst this
      simp [chunksOf_nil] at hc
    | succ m ih =>
      intro l hl c hc
      cases l with
      | nil => simp [chunksOf_nil] at hc
      | cons x xs =>
        rw [chunksOf_cons] at hc
        rcases List.mem_cons.mp hc with rfl | hc
        · refine ⟨by simp, ?_⟩
          simp [List.take_cons]
        · exact ih ((x :: xs).drop (k + 1))
            (by simp only [List.length_drop, List.length_cons] at *; omega) c hc
  exact H l.length l le_rfl

theorem chunksOf_dropLast_length {α : Type} (n : Nat) (hn : 0 < n) (l : List α) :
    ∀ c ∈ (chunksOf n l).dropLast, c.length = n := by
  obtain ⟨k, rfl⟩ : ∃ k, n = k + 1 := ⟨n - 1, by omega⟩
  have H : ∀ (m : Nat) (l : List α), l.length ≤ m →
      ∀ c ∈ (chunksOf (k + 1) l).dropLast, c.length = k + 1 := by
    intro m
    induction m with
    | zero =>
      intro l hl c hc
      have : l = [] := by cases l <;> simp_all
      subst this
      simp [chunksOf_nil] at hc
    | succ m ih =>
      intro l hl c hc
      cases l with
      | nil => simp [chunksOf_nil] at hc
      | cons x xs =>
        rw [chunksOf_cons] at hc
        by_cases hrest : chunksOf (k + 1) ((x :: xs).drop (k + 1)) = []
        · rw [hrest] at hc
          simp at hc
        · rw [List.dropLast_cons_of_ne_nil hrest] at hc
          rcases List.mem_cons.mp hc with rfl | hc
          · -- the head chunk is followed by at least one more, so drop (k+1) ≠ []
            have hdrop : (x :: xs).drop (k + 1) ≠ [] := by
              intro hd
              rw [hd, chunksOf_nil] at hrest
              exact hrest rfl
            have hlen : k + 1 < (x :: xs).length := by
              by_contra hge
              push_neg at hge
              exact hdrop (List.drop_eq_nil_of_le hge)
            simp only [List.length_take]
            omega
          · exact ih ((x :: xs).drop (k + 1))
              (by simp only [List.length_drop, List.length_cons] at *; omega) c hc
  exact H l.length l le_rfl

/-! ## DynamoDbService — batched and transactional writes
(src/backend/aws_integration/s3_integration.py)

A Python record is an association list `List (String × π)`; the boto3
`TypeSerializer.serialize` for individual values is the environment `ser`.
The HTTP status code that `batch_write_item` / `transact_write_items`
answers the `i`-th call with is the environment `env i`. -/

namespace DynamoDbService

/-- `__python_obj_to_dynamo_obj` (s3_integration.py lines 12-23):
`{k: serializer.serialize(v) for k, v in python_obj.items()}`. -/
def python_obj_to_dynamo_obj {π δ : Type} (ser : π → δ) (python_obj : List (String × π)) :
    List (String × δ) :=
  python_obj.map (fun kv => (kv.1, ser kv.2))

/-- One `{"PutRequest": {"Item": item}}` entry of a `batch_write_item` request. -/
structure PutRequest (δ : Type) where
  item : List (String × δ)
deriving DecidableEq

/-- One `batch_write_item` call: its `RequestItems={table_name: put_batch}`. -/
structure BatchWriteCall (δ : Type) where
  tableName : String
  requestItems : List (PutRequest δ)
deriving DecidableEq

/-- The `for put_batch in put_batches` loop of `batch_upsert`
(s3_integration.py lines 147-154): one `batch_write_item` call per batch, in
order, raising as soon as a response status is not 200. Returns the calls
actually issued and the error message, if any. -/
def batchWriteLoop {δ : Type} (env : Nat → Nat) (table_name : String) :
    Nat → List (List (PutRequest δ)) → List (BatchWriteCall δ) × Option String
  | _, [] => ([], Option.none)
  | idx, put_batch :: rest =>
    if env idx = 200 then
      let r := batchWriteLoop env table_name (idx + 1) rest
      (⟨table_name, put_batch⟩ :: r.1, r.2)
    else
      (⟨table_name, put_batch⟩ :: [],
        some ("Error when writing batch to dynamo table " ++ table_name))

/-- `batch_upsert` (s3_integration.py lines 128-154): serialize every record
into a put-request, split into batches of 25, and issue one
`batch_write_item` call per batch. -/
def batch_upsert {π δ : Type} (ser : π → δ) (env : Nat → Nat)
    (records : List (List (String × π))) (table_name : String) :
    List (BatchWriteCall δ) × Option String :=
  let put_requests := records.map (fun item => PutRequest.mk ( python_obj_to_dynamo_obj ser item))
  let put_batches := chunksOf 25 put_requests
  batchWriteLoop env table_name 0 put_batches

theorem batchWriteLoop_all_ok {δ : Type} (env : Nat → Nat) (table_name : String)
    (h200 : ∀ i, env i = 200) :
    ∀ (batches : List (List (PutRequest δ))) (idx : Nat),
      batchWriteLoop env table_name idx batches =
        (batches.map (fun b => BatchWriteCall.mk table_name b), Option.none) := by
  intro batches
  induction batches with
  | nil => intro idx; rfl
  | cons b bs ih =>
    intro idx
    rw [batchWriteLoop]
    rw [h200 idx, if_pos rfl, ih (idx + 1)]
    rfl

/-- One `{"Put": {"TableName": ..., "Item": ...}}` entry of a
`transact_write_items` call. -/
structure TransactPut (δ : Type) where
  tableName : String
  item : List (String × δ)
deriving DecidableEq

/-- The `for batch in batches` loop of `transaction_write_items`
(s3_integration.py lines 196-211): one `transact_write_items` call per batch
of records, each record serialized as a `Put` against `table_name`; raising
as soon as a response status is not 200. -/
def transactWriteLoop {π δ : Type} (ser : π → δ) (env : Nat → Nat) (table_name : String) :
    Nat → List (List (List (String × π))) → List (List (TransactPut δ)) × Option String
  | _, [] => ([], Option.none)
  | idx, batch :: rest =>
    let call := batch.map
      (fun record => TransactPut.mk table_name ( python_obj_to_dynamo_obj ser record))
    if env idx = 200 then
      let r := transactWriteLoop ser env table_name (idx + 1) rest
      (call :: r.1, r.2)
    else
      (call :: [], some ("Error when writing items to dynamo table " ++ table_name))

/-- `transaction_write_items` (s3_integration.py lines 177-211): split the
records into batches of `batch_size = 100` and issue one
`transact_write_items` call per batch. -/
def transaction_write_items {π δ : Type} (ser : π → δ) (env : Nat → Nat)
    (table_name : String) (records : List (List (String × π))) :
    List (List (TransactPut δ)) × Option String :=
  let batch_size := 100
  let batches := chunksOf batch_size records
  transactWriteLoop ser env table_name 0 batches

theorem transactWriteLoop_all_ok {π δ : Type} (ser : π → δ) (env : Nat → Nat)
    (table_name : String) (h200 : ∀ i, env i = 200) :
    ∀ (batches : List (List (List (String × π)))) (idx : Nat),
      transactWriteLoop ser env table_name idx batches =
        (batches.map (fun batch => batch.map
          (fun record => TransactPut.mk table_name ( python_obj_to_dynamo_obj ser record))),
         Option.none) := by
  intro batches
  induction batches with
  | nil => intro idx; rfl
  | cons b bs ih =>
    intro idx
    rw [transactWriteLoop]
    simp [h200 idx, ih (idx + 1)]

/-! ### `batch_get` (s3_integration.py lines 92-126)

Items and keys are opaque (`Nat`); a `batch_get_item` response carries a
`Responses` dict (table name → list of items) and an `UnprocessedKeys` dict.
The SDK is the environment `env`, giving the response to the `i`-th call. -/

/-- One `batch_get_item` response: its `Responses` and `UnprocessedKeys`. -/
structure BGResponse where
  responses : List (String × List Nat)
  unprocessedKeys : List (String × List Nat)

/-- `retrieved[key] += items`: Python dict update-in-place, a `KeyError`
(`Option.none`) when `key` is absent. -/
def addToKey : List (String × List Nat) → String → List Nat →
    Option (List (String × List Nat))
  | [], _, _ => Option.none
  | (k', v') :: rest, k, v =>
    if k' = k then some ((k', v' ++ v) :: rest)
    else (addToKey rest k v).map (fun r => (k', v') :: r)

/-- The `for key in response.get("Responses", [])` loop
(s3_integration.py lines 115-116). -/
def collectResponses (retrieved : List (String × List Nat)) :
    List (String × List Nat) → Option (List (String × List Nat))
  | [] => some retrieved
  | (k, items) :: rest =>
    match addToKey retrieved k items with
    | Option.none => Option.none
    | some r => collectResponses r rest

/-- What a `batch_get` run produces: the `retrieved` dict it returns, the
number of `batch_get_item` calls issued, and the `time.sleep` durations in
order. -/
structure BGResult where
  retrieved : List (String × List Nat)
  calls : Nat
  sleeps : List Nat
deriving DecidableEq

/-- The `while tries < max_tries` loop of `batch_get`
(s3_integration.py lines 112-125), with `max_tries = 10`. `Option.none` is
the `KeyError` raised by `retrieved[key] +=` on an alien table name. -/
def batchGetGo (env : Nat → BGResponse) (tries sleepy_time : Nat)
    (batch_keys retrieved : List (String × List Nat)) (calls : Nat) (sleeps : List Nat) :
    Option BGResult :=
  if h : tries < 10 then
    let response := env calls
    match collectResponses retrieved response.responses with
    | Option.none => Option.none
    | some retrieved' =>
      if response.unprocessedKeys.length > 0 then
        if tries + 1 < 10 then
          batchGetGo env (tries + 1) (min (sleepy_time * 2) 32) response.unprocessedKeys
            retrieved' (calls + 1) (sleeps ++ [sleepy_time])
        else some ⟨retrieved', calls + 1, sleeps⟩
      else some ⟨retrieved', calls + 1, sleeps⟩
  else some ⟨retrieved, calls, sleeps⟩
termination_by 10 - tries

/-- `batch_get` (s3_integration.py lines 92-126): `tries = 0`,
`sleepy_time = 1`, `retrieved = {key: [] for key in batch_keys}`. -/
def batch_get (env : Nat → BGResponse) (batch_keys : List (String × List Nat)) :
    Option BGResult :=
  batchGetGo env 0 1 batch_keys (batch_keys.map (fun kv => (kv.1, ([] : List Nat)))) 0 []

/-- The table names of a Python dict. -/
def keysOf (d : List (String × List Nat)) : List String :=
  d.map Prod.fst

/-- Every `Responses` dict the SDK ever answers with mentions only table
names among `ks` (in a real run, only requested tables appear). -/
def envWF (env : Nat → BGResponse) (ks : List String) : Prop :=
  ∀ i, ∀ p ∈ (env i).responses, p.1 ∈ ks

theorem addToKey_keys (k : String) (v : List Nat) :
    ∀ (d : List (String × List Nat)), k ∈ keysOf d →
      ∃ r, addToKey d k v = some r ∧ keysOf r = keysOf d := by
  intro d
  induction d with
  | nil => intro h; simp [keysOf] at h
  | cons kv rest ih =>
    intro h
    obtain ⟨k', v'⟩ := kv
    by_cases hk : k' = k
    · exact ⟨(k', v' ++ v) :: rest, by rw [addToKey, if_pos hk], by simp [keysOf]⟩
    · have hmem : k ∈ keysOf rest := by
        simp [keysOf] at h ⊢
        rcases h with h | h
        · exact absurd h.symm hk
        · exact h
      obtain ⟨r, hr, hkeys⟩ := ih hmem
      refine ⟨(k', v') :: r, ?_, by simp [keysOf] at hkeys ⊢; exact hkeys⟩
      rw [addToKey, if_neg hk, hr]
      rfl

theorem collectResponses_keys :
    ∀ (rs retrieved : List (String × List Nat)),
      (∀ p ∈ rs, p.1 ∈ keysOf retrieved) →
      ∃ r, collectResponses retrieved rs = some r ∧ keysOf r = keysOf retrieved := by
  intro rs
  induction rs with
  | nil => intro retrieved _; exact ⟨retrieved, rfl, rfl⟩
  | cons p rest ih =>
    intro retrieved hmem
    obtain ⟨k, items⟩ := p
    obtain ⟨r, hr, hkeys⟩ := addToKey_keys k items retrieved (hmem _ (List.mem_cons_self _ _))
    obtain ⟨r', hr', hkeys'⟩ := ih r (by
      intro q hq
      rw [hkeys]
      exact hmem q (List.mem_cons_of_mem _ hq))
    refine ⟨r', ?_, hkeys'.trans hkeys⟩
    rw [collectResponses, hr]
    exact hr'

theorem min_double_cap (a : Nat) : min (min a 32 * 2) 32 = min (a * 2) 32 := by
  omega

/-- Invariant of the `batch_get` retry loop, entered with `calls = tries`,
`sleepy_time = min (2 ^ tries) 32` and the sleeps performed so far being
`1, 2, 4, ...` capped at 32. -/
theorem batchGetGo_spec (env : Nat → BGResponse) (ks : List String) (hwf : envWF env ks) :
    ∀ (k : Nat), ∀ (tries : Nat), 10 - tries ≤ k → tries < 10 →
    ∀ (bk retrieved : List (String × List Nat)), keysOf retrieved = ks →
      ∃ res, batchGetGo env tries (min (2 ^ tries) 32) bk retrieved tries
          ((List.range tries).map (fun j => min (2 ^ j) 32)) = some res ∧
        keysOf res.retrieved = ks ∧
        tries < res.calls ∧ res.calls ≤ 10 ∧
        res.sleeps = (List.range (res.calls - 1)).map (fun j => min (2 ^ j) 32) ∧
        (∀ j, j + 1 < res.calls → j < tries ∨ (env j).unprocessedKeys ≠ []) ∧
        ((∀ i, (env i).unprocessedKeys ≠ []) → res.calls = 10) := by
  intro k
  induction k with
  | zero => intro tries hk htries; omega
  | succ k ih =>
    intro tries hk htries bk retrieved hkeys
    obtain ⟨r, hr, hrkeys⟩ := collectResponses_keys (env tries).responses retrieved (by
      intro p hp
      rw [hkeys]
      exact hwf tries p hp)
    rw [batchGetGo]
    rw [dif_pos htries]
    simp only [hr]
    by_cases hunp : (env tries).unprocessedKeys.length > 0
    · rw [if_pos hunp]
      by_cases hnext : tries + 1 < 10
      · rw [if_pos hnext]
        have hsleepy : min (min (2 ^ tries) 32 * 2) 32 = min (2 ^ (tries + 1)) 32 := by
          rw [min_double_cap, Nat.pow_succ]
        have hsleeps :
            (List.range tries).map (fun j => min (2 ^ j) 32) ++ [min (2 ^ tries) 32] =
              (List.range (tries + 1)).map (fun j => min (2 ^ j) 32) := by
          rw [List.range_succ, List.map_append]
          rfl
        rw [hsleepy, hsleeps]
        obtain ⟨res, hres, h1, h2, h3, h4, h5, h6⟩ :=
          ih (tries + 1) (by omega) hnext (env tries).unprocessedKeys r (hrkeys.trans hkeys)
        refine ⟨res, hres, h1, by omega, h3, h4, ?_, h6⟩
        intro j hj
        rcases h5 j hj with hlt | hne
        · by_cases hjt : j = tries
          · subst hjt
            exact Or.inr (by intro hnil; rw [hnil] at hunp; simp at hunp)
          · exact Or.inl (by omega)
        · exact Or.inr hne
      · rw [if_neg hnext]
        have htries9 : tries = 9 := by omega
        subst htries9
        refine ⟨⟨r, 10, (List.range 9).map (fun j => min (2 ^ j) 32)⟩, rfl,
          hrkeys.trans hkeys, ?_, ?_, ?_, ?_, ?_⟩
        · exact (by omega : (9 : Nat) < 10)
        · exact (by omega : (10 : Nat) ≤ 10)
        · simp
        · intro j hj
          have hj' : j + 1 < 10 := hj
          exact Or.inl (by omega)
        · intro _
          rfl
    · rw [if_neg hunp]
      have hempty : (env tries).unprocessedKeys = [] := List.length_eq_zero.mp (by omega)
      refine ⟨⟨r, tries + 1, (List.range tries).map (fun j => min (2 ^ j) 32)⟩, rfl,
        hrkeys.trans hkeys, ?_, ?_, ?_, ?_, ?_⟩
      · exact Nat.lt_succ_self tries
      · exact (by omega : tries + 1 ≤ 10)
      · simp
      · intro j hj
        have hj' : j + 1 < tries + 1 := hj
        exact Or.inl (by omega)
      · intro hall
        exact absurd hempty (hall tries)

/-! ### `query_table` and `scan_table` (s3_integration.py lines 25-58 and 60-90)

Items and evaluated keys are opaque (`Nat`). A page is one `query`/`scan`
response: its `Items` and its `LastEvaluatedKey` (`Option.none` when the
response carries none; a present key is a non-empty dict, hence truthy).
The environment `env` gives the `i`-th response. -/

/-- One `query`/`scan` response. -/
structure Page where
  items : List Nat
  lastEvaluatedKey : Option Nat

/-- The `while not done` loop of `query_table` (s3_integration.py lines
46-54): request pages, extending `retrieved` with each page's `Items`,
setting `ExclusiveStartKey` to the previous page's `LastEvaluatedKey`, until
a page has no `LastEvaluatedKey`. Returns the retrieved items and the
`ExclusiveStartKey` of every request in order (`Option.none` for the first
request, which sets none); `Option.none` overall when `fuel` runs out before
the loop exits (the Python loop would still be running). -/
def queryGo (env : Nat → Page) : Nat → Nat → Option Nat →
    Option (List Nat × List (Option Nat))
  | 0, _, _ => Option.none
  | fuel + 1, idx, start_key =>
    let response := env idx
    match response.lastEvaluatedKey with
    | Option.none => some (response.items, [start_key])
    | some k =>
      match queryGo env fuel (idx + 1) (some k) with
      | Option.none => Option.none
      | some (rest, reqs) => some (response.items ++ rest, start_key :: reqs)

/-- `query_table` (s3_integration.py lines 25-58): run the pagination loop
from `start_key = None`. -/
def query_table (env : Nat → Page) (fuel : Nat) : Option (List Nat × List (Option Nat)) :=
  queryGo env fuel 0 Option.none

/-- The `while not done` loop of `scan_table` (s3_integration.py lines
77-86), identical in structure to the `query_table` loop. -/
def scanGo (env : Nat → Page) : Nat → Nat → Option Nat →
    Option (List Nat × List (Option Nat))
  | 0, _, _ => Option.none
  | fuel + 1, idx, start_key =>
    let response := env idx
    match response.lastEvaluatedKey with
    | Option.none => some (response.items, [start_key])
    | some k =>
      match scanGo env fuel (idx + 1) (some k) with
      | Option.none => Option.none
      | some (rest, reqs) => some (response.items ++ rest, start_key :: reqs)

/-- `scan_table` (s3_integration.py lines 60-90). -/
def scan_table (env : Nat → Page) (fuel : Nat) : Option (List Nat × List (Option Nat)) :=
  scanGo env fuel 0 Option.none

theorem queryGo_spec (env : Nat → Page) :
    ∀ (n idx : Nat) (start_key : Option Nat) (fuel : Nat),
      (env (idx + n)).lastEvaluatedKey = Option.none →
      (∀ i, i < n → (env (idx + i)).lastEvaluatedKey ≠ Option.none) →
      n < fuel →
      queryGo env fuel idx start_key =
        some (((List.range (n + 1)).map (fun i => (env (idx + i)).items)).flatten,
          start_key :: (List.range n).map (fun i => (env (idx + i)).lastEvaluatedKey)) := by
  intro n
  induction n with
  | zero =>
    intro idx start_key fuel h1 h2 hfuel
    obtain ⟨f, rfl⟩ : ∃ f, fuel = f + 1 := ⟨fuel - 1, by omega⟩
    rw [queryGo]
    rw [Nat.add_zero] at h1
    simp [h1, List.range_succ]
  | succ n ih =>
    intro idx start_key fuel h1 h2 hfuel
    obtain ⟨f, rfl⟩ : ∃ f, fuel = f + 1 := ⟨fuel - 1, by omega⟩
    obtain ⟨k, hk⟩ : ∃ k, (env idx).lastEvaluatedKey = some k := by
      have := h2 0 (by omega)
      rw [Nat.add_zero] at this
      cases hke : (env idx).lastEvaluatedKey with
      | none => exact absurd hke this
      | some k => exact ⟨k, rfl⟩
    rw [queryGo]
    simp only [hk]
    rw [ih (idx + 1) (some k) f
      (by rw [show idx + 1 + n = idx + (n + 1) by omega]; exact h1)
      (by intro i hi
          rw [show idx + 1 + i = idx + (i + 1) by omega]
          exact h2 (i + 1) (by omega))
      (by omega)]
    have hshift : ∀ {β : Type} (m : Nat) (g : Nat → β),
        (List.range (m + 1)).map (fun i => g (idx + i)) =
          g idx :: (List.range m).map (fun i => g (idx + 1 + i)) := by
      intro β m g
      rw [List.range_succ_eq_map]
      simp only [List.map_cons, List.map_map, Nat.add_zero]
      congr 1
      apply List.map_congr_left
      intro a _
      simp only [Function.comp, Nat.succ_eq_add_one]
      congr 1
      omega
    rw [hshift (n + 1) (fun j => (env j).items), hshift n (fun j => (env j).lastEvaluatedKey),
      hk, List.flatten_cons]

theorem scanGo_eq_queryGo (env : Nat → Page) :
    ∀ (fuel idx : Nat) (start_key : Option Nat),
      scanGo env fuel idx start_key = queryGo env fuel idx start_key := by
  intro fuel
  induction fuel with
  | zero => intro idx start_key; rfl
  | succ f ih =>
    intro idx start_key
    rw [scanGo, queryGo]
    simp only [ih (idx + 1) ]

end DynamoDbService

/-! ## S3Service (src/backend/aws_integration/ddb_integration.py)

Raw object bodies are opaque (`β`, a type of byte strings); the gzip module
and UTF-8 codec are environment functions over `β`. The bucket contents are
a store `String → String → Option β` (bucket → key → body), `Option.none`
for a missing object. -/

namespace S3Service

/-- The contents of S3 as seen through `put_object` / `get_object`. -/
def Store (β : Type) : Type := String → String → Option β

/-- A `list_objects_v2` response: its HTTP status code and its `Contents`
(the listed object records, kept opaque as their `Key` strings). -/
structure ListObjectsResponse where
  httpStatusCode : Nat
  contents : List String

/-- `list_objects_by_prefix` (ddb_integration.py lines 13-29): returns
`s3_results["Contents"]` when the status code is 200 and falls off the end
of the function (Python `None`) otherwise. -/
def list_objects_by_prefix (s3_results : ListObjectsResponse) : Option (List String) :=
  if s3_results.httpStatusCode = 200 then some s3_results.contents else Option.none

/-- `write_gzip_to_s3` (ddb_integration.py lines 167-201): gzip-compress the
UTF-8 encoding of `file_content` into a member named after the last `/`
component of `file_key`, and `put_object` the compressed bytes at
`(s3_bucket, file_key)`. `gzipCompress fname b` is
`gzip.GzipFile(filename=fname, mode="wb", ...)` writing `b`. -/
def write_gzip_to_s3 {β : Type} (gzipCompress : String → β → β) (utf8Encode : String → β)
    (store : Store β) (file_content : String) (s3_bucket : String) (file_key : String)
    (content_type : String) : Store β :=
  let file_name := (file_key.splitOn "/").getLast!
  let body := gzipCompress file_name (utf8Encode file_content)
  fun b k => if b = s3_bucket ∧ k = file_key then some body else store b k

/-- `read_gzip_object_from_s3` (ddb_integration.py lines 45-58): `get_object`
the body at `(bucket, key)`, gzip-decompress it and decode as UTF-8;
`Option.none` is the SDK error for a missing object. -/
def read_gzip_object_from_s3 {β : Type} (gzipDecompress : β → β) (utf8Decode : β → String)
    (store : Store β) (bucket : String) (key : String) : Option String :=
  (store bucket key).map (fun body => utf8Decode (gzipDecompress body))

/-- Python `str.splitlines` restricted to the `\n`, `\r\n` and `\r`
terminators (the csv texts at hand): split into lines, no trailing empty
line for a trailing terminator. -/
def pySplitlinesAux : List Char → List Char → List String
  | [], acc => if acc.isEmpty then [] else [String.mk acc.reverse]
  | '\r' :: '\n' :: rest, acc => String.mk acc.reverse :: pySplitlinesAux rest []
  | '\n' :: rest, acc => String.mk acc.reverse :: pySplitlinesAux rest []
  | '\r' :: rest, acc => String.mk acc.reverse :: pySplitlinesAux rest []
  | c :: rest, acc => pySplitlinesAux rest (c :: acc)

/-- Python `csv_data.splitlines()`. -/
def pySplitlines (s : String) : List String :=
  pySplitlinesAux s.data []

/-- `dict(zip(fieldnames, row))` as `csv.DictReader` builds it: missing
trailing fields get `restval` (`None`); fields beyond the given column names
(Python's `restkey` entry) are dropped here, no claim mentions them. -/
def padZip : List String → List String → List (String × Option String)
  | [], _ => []
  | c :: cs, [] => (c, Option.none) :: padZip cs []
  | c :: cs, v :: vs => (c, some v) :: padZip cs vs

/-- `list(csv.DictReader(lines, fieldnames=columns))` for unquoted csv
lines: split each line on commas and zip with the column names; the csv
reader yields nothing for an empty line. -/
def dictRead (columns : List String) (lines : List String) :
    List (List (String × Option String)) :=
  lines.filterMap (fun line =>
    if line = "" then Option.none else some (padZip columns (line.splitOn ",")))

/-- The `for content in res["Contents"]` loop of `read_multiple_csv_from_s3`
(ddb_integration.py lines 147-162): for each listed key, read the object,
decode, split into lines, drop the first line, parse with `csv.DictReader`,
and append to `final_data_list`. `getObject k` is the decoded body of
`get_object(Bucket=s3_bucket, Key=k)`. -/
def readMultipleCsvLoop (getObject : String → String) (columns : List String) :
    List String → List (List (String × Option String)) →
    List (List (String × Option String))
  | [], final_data_list => final_data_list
  | object_key :: rest, final_data_list =>
    let csv_data := getObject object_key
    let csv_data_list := (pySplitlines csv_data).drop 1
    let parsed_data_list := dictRead columns csv_data_list
    readMultipleCsvLoop getObject columns rest (final_data_list ++ parsed_data_list)

/-- `read_multiple_csv_from_s3` (ddb_integration.py lines 123-165): list the
objects under the given bucket and prefix (`res` is the `list_objects_v2`
response), and when the status code is 200 fold every listed object's parsed
csv rows into `final_data_list`, else return the empty initial list. -/
def read_multiple_csv_from_s3 (res : ListObjectsResponse) (getObject : String → String)
    (columns : List String) : List (List (String × Option String)) :=
  if res.httpStatusCode = 200 then readMultipleCsvLoop getObject columns res.contents []
  else []

theorem readMultipleCsvLoop_append (getObject : String → String) (columns : List String) :
    ∀ (keys : List String) (acc : List (List (String × Option String))),
      readMultipleCsvLoop getObject columns keys acc =
        acc ++ (keys.map
          (fun k => dictRead columns ((pySplitlines (getObject k)).drop 1))).flatten := by
  intro keys
  induction keys with
  | nil => intro acc; simp [readMultipleCsvLoop]
  | cons k rest ih =>
    intro acc
    rw [readMultipleCsvLoop]
    rw [ih]
    simp

end S3Service

/-! ## Claim theorems -/

open DynamoDbService S3Service

/-- Claim C1: for every request to GET /get_questions, the JSON value
returned to the caller equals the JSON body returned by the upstream trivia
API for the forwarded parameters, with no field added, removed, or
modified. -/
theorem claim_C1_get_questions_returns_upstream_json :
    ∀ {J : Type} (api : List (String × PValue) → J) (amount : Option Int)
      (category difficulty : Option String),
      get_questions api amount category difficulty =
        api ( quizzAppParams amount category difficulty) :=
  fun _ _ _ _ => rfl

/-- Claim C2, counterexample: a caller can supply an empty `category` query
parameter (FastAPI parses `?category=` into the empty string); the `if
category:` truthiness test then skips the insertion, so the forwarded dict
does not contain the key even though the parameter was supplied. -/
theorem claim_C2_counterexample :
    (some "" : Option String) ≠ Option.none ∧
    lookupStr ( quizzAppParams (some 5) (some "") Option.none) "category" = Option.none := by
  constructor
  · simp
  · rfl

/-- Claim C2, amended: the forwarded dict always contains the key `amount`
(mapped to the supplied amount); it contains `category` (respectively
`difficulty`) exactly when the caller supplied a NON-EMPTY category
(respectively difficulty), with the supplied value passed through
unchanged. -/
theorem claim_C2_forwarded_params :
    ∀ (amount : Option Int) (category difficulty : Option String),
      lookupStr ( quizzAppParams amount category difficulty) "amount" =
        some (match amount with
          | some n => PValue.int n
          | Option.none => PValue.pynone) ∧
      lookupStr ( quizzAppParams amount category difficulty) "category" =
        (match category with
          | some c => if c ≠ "" then some (PValue.str c) else Option.none
          | Option.none => Option.none) ∧
      lookupStr ( quizzAppParams amount category difficulty) "difficulty" =
        (match difficulty with
          | some d => if d ≠ "" then some (PValue.str d) else Option.none
          | Option.none => Option.none) := by
  intro amount category difficulty
  rcases amount with _ | n <;> rcases category with _ | c <;> rcases difficulty with _ | d <;>
    simp only [quizzAppParams] <;> (try split_ifs) <;> (try simp [lookupStr])

/-- Claim C3: `batch_upsert` partitions the serialized put-requests into
consecutive batches of exactly 25 each except possibly a smaller final one,
issues one `batch_write_item` call per batch in order, and the concatenation
of all batches is the serialized input list in its original order. (Stated
for runs where every response status is 200; a non-200 status raises.) -/
theorem claim_C3_batch_upsert_batching (π δ : Type) (ser : π → δ) (env : Nat → Nat)
    (records : List (List (String × π))) (table_name : String)
    (h200 : ∀ i, env i = 200) :
    (( batch_upsert ser env records table_name).1.map BatchWriteCall.requestItems).flatten =
      records.map (fun item => PutRequest.mk ( python_obj_to_dynamo_obj ser item)) ∧
    (∀ b ∈ (( batch_upsert ser env records table_name).1.map
        BatchWriteCall.requestItems).dropLast, b.length = 25) ∧
    (∀ b ∈ ( batch_upsert ser env records table_name).1.map BatchWriteCall.requestItems,
        b.length ≤ 25 ∧ b ≠ []) ∧
    (∀ call ∈ ( batch_upsert ser env records table_name).1, call.tableName = table_name) ∧
    ( batch_upsert ser env records table_name).2 = Option.none := by
  have key : batch_upsert ser env records table_name =
      ((chunksOf 25 (records.map
          (fun item => PutRequest.mk ( python_obj_to_dynamo_obj ser item)))).map
        (fun b => BatchWriteCall.mk table_name b), Option.none) := by
    unfold DynamoDbService.batch_upsert
    exact batchWriteLoop_all_ok env table_name h200 _ 0
  rw [key]
  have hmap : ((chunksOf 25 (records.map
        (fun item => PutRequest.mk ( python_obj_to_dynamo_obj ser item)))).map
      (fun b => BatchWriteCall.mk table_name b)).map BatchWriteCall.requestItems =
      chunksOf 25 (records.map (fun item => PutRequest.mk ( python_obj_to_dynamo_obj ser item))) := by
    rw [List.map_map]
    exact List.map_id _
  refine ⟨?_, ?_, ?_, ?_, rfl⟩
  · rw [hmap]
    exact chunksOf_flatten 25 (by omega) _
  · rw [hmap]
    exact chunksOf_dropLast_length 25 (by omega) _
  · rw [hmap]
    exact chunksOf_mem_length 25 (by omega) _
  · intro call hcall
    obtain ⟨b, _, rfl⟩ := List.mem_map.mp hcall
    rfl

/-- Claim C3, witness: a two-record upsert against an all-200 SDK. -/
theorem claim_C3_witness :
    (∀ i : Nat, (fun _ : Nat => 200) i = 200) ∧
    ((( batch_upsert (fun v : Nat => v) (fun _ => 200) [[("a", 1)], [("b", 2)]] "T").1.map
        BatchWriteCall.requestItems).flatten =
      [[("a", 1)], [("b", 2)]].map
        (fun item => PutRequest.mk ( python_obj_to_dynamo_obj (fun v : Nat => v) item)) ∧
    (∀ b ∈ (( batch_upsert (fun v : Nat => v) (fun _ => 200) [[("a", 1)], [("b", 2)]] "T").1.map
        BatchWriteCall.requestItems).dropLast, b.length = 25) ∧
    (∀ b ∈ ( batch_upsert (fun v : Nat => v) (fun _ => 200) [[("a", 1)], [("b", 2)]] "T").1.map
        BatchWriteCall.requestItems, b.length ≤ 25 ∧ b ≠ []) ∧
    (∀ call ∈ ( batch_upsert (fun v : Nat => v) (fun _ => 200) [[("a", 1)], [("b", 2)]] "T").1,
        call.tableName = "T") ∧
    ( batch_upsert (fun v : Nat => v) (fun _ => 200) [[("a", 1)], [("b", 2)]] "T").2 =
      Option.none) :=
  ⟨fun _ => rfl,
    claim_C3_batch_upsert_batching Nat Nat (fun v => v) (fun _ => 200)
      [[("a", 1)], [("b", 2)]] "T" (fun _ => rfl)⟩

/-- Claim C4: `transaction_write_items` partitions the records into
consecutive batches of at most 100, issues one `transact_write_items` call
per batch in order with each record serialized as a `Put` against the given
table, and the concatenation of all batches is the input list (serialized)
in its original order. (Stated for runs where every response status is
200; a non-200 status raises.) -/
theorem claim_C4_transaction_write_batching (π δ : Type) (ser : π → δ) (env : Nat → Nat)
    (table_name : String) (records : List (List (String × π)))
    (h200 : ∀ i, env i = 200) :
    (( transaction_write_items ser env table_name records).1.map
        (fun call => call.map TransactPut.item)).flatten =
      records.map (fun record => python_obj_to_dynamo_obj ser record) ∧
    (∀ call ∈ ( transaction_write_items ser env table_name records).1,
        call.length ≤ 100 ∧ call ≠ [] ∧ ∀ p ∈ call, p.tableName = table_name) ∧
    ( transaction_write_items ser env table_name records).2 = Option.none := by
  have key : transaction_write_items ser env table_name records =
      ((chunksOf 100 records).map (fun batch => batch.map
        (fun record => TransactPut.mk table_name ( python_obj_to_dynamo_obj ser record))),
       Option.none) := by
    unfold DynamoDbService.transaction_write_items
    exact transactWriteLoop_all_ok ser env table_name h200 _ 0
  rw [key]
  refine ⟨?_, ?_, rfl⟩
  · rw [List.map_map]
    have : ((fun call => List.map TransactPut.item call) ∘ fun batch => batch.map
        (fun record => TransactPut.mk table_name ( python_obj_to_dynamo_obj ser record))) =
        fun batch : List (List (String × π)) => batch.map
          (fun record => python_obj_to_dynamo_obj ser record) := by
      funext batch
      simp [List.map_map]
    rw [this, ← List.map_flatten, chunksOf_flatten 100 (by omega)]
  · intro call hcall
    obtain ⟨batch, hbatch, rfl⟩ := List.mem_map.mp hcall
    obtain ⟨hlen, hne⟩ := chunksOf_mem_length 100 (by omega) records batch hbatch
    refine ⟨by simpa using hlen, by simpa using hne, ?_⟩
    intro p hp
    obtain ⟨record, _, rfl⟩ := List.mem_map.mp hp
    rfl

/-- Claim C4, witness: a single-record transaction against an all-200 SDK. -/
theorem claim_C4_witness :
    (∀ i : Nat, (fun _ : Nat => 200) i = 200) ∧
    ((( transaction_write_items (fun v : Nat => v) (fun _ => 200) "T" [[("a", 1)]]).1.map
        (fun call => call.map TransactPut.item)).flatten =
      [[("a", 1)]].map (fun record => python_obj_to_dynamo_obj (fun v : Nat => v) record) ∧
    (∀ call ∈ ( transaction_write_items (fun v : Nat => v) (fun _ => 200) "T" [[("a", 1)]]).1,
        call.length ≤ 100 ∧ call ≠ [] ∧ ∀ p ∈ call, p.tableName = "T") ∧
    ( transaction_write_items (fun v : Nat => v) (fun _ => 200) "T" [[("a", 1)]]).2 =
      Option.none) :=
  ⟨fun _ => rfl,
    claim_C4_transaction_write_batching Nat Nat (fun v => v) (fun _ => 200) "T"
      [[("a", 1)]] (fun _ => rfl)⟩

theorem keysOf_init (bk : List (String × List Nat)) :
    keysOf (bk.map (fun kv => (kv.1, ([] : List Nat)))) = keysOf bk := by
  simp [ DynamoDbService.keysOf, List.map_map, Function.comp]

/-- Claim C5: `batch_get` terminates for every sequence of SDK responses —
it issues at most 10 `batch_get_item` attempts, retries only while the
response's `UnprocessedKeys` is non-empty, and the sleep before each
successive retry is 1, 2, 4, ... seconds, doubling each time and capped at
32 seconds. -/
theorem claim_C5_batch_get_retry_bounds (env : Nat → BGResponse)
    (batch_keys : List (String × List Nat))
    (hwf : envWF env ( keysOf batch_keys)) :
    ∃ res, batch_get env batch_keys = some res ∧
      res.calls ≤ 10 ∧
      res.sleeps = (List.range (res.calls - 1)).map (fun j => min (2 ^ j) 32) ∧
      (∀ j, j + 1 < res.calls → (env j).unprocessedKeys ≠ []) := by
  obtain ⟨res, hres, hkeys, hlt, hle, hsleeps, hretry, hall⟩ :=
    batchGetGo_spec env ( keysOf batch_keys) hwf 10 0 (by omega) (by omega)
      batch_keys (batch_keys.map (fun kv => (kv.1, ([] : List Nat)))) (keysOf_init batch_keys)
  refine ⟨res, hres, hle, hsleeps, ?_⟩
  intro j hj
  rcases hretry j hj with h | h
  · omega
  · exact h

/-- Claim C5, witness: an SDK that always reports unprocessed keys. -/
theorem claim_C5_witness :
    DynamoDbService.envWF (fun _ => ⟨[("T", [1])], [("T", [0])]⟩)
      ( keysOf [("T", [0, 1])]) ∧
    (∃ res, batch_get (fun _ => ⟨[("T", [1])], [("T", [0])]⟩) [("T", [0, 1])] = some res ∧
      res.calls ≤ 10 ∧
      res.sleeps = (List.range (res.calls - 1)).map (fun j => min (2 ^ j) 32) ∧
      (∀ j, j + 1 < res.calls →
        ((fun _ : Nat => (⟨[("T", [1])], [("T", [0])]⟩ : BGResponse)) j).unprocessedKeys ≠ [])) := by
  have hwf : DynamoDbService.envWF (fun _ => ⟨[("T", [1])], [("T", [0])]⟩)
      ( keysOf [("T", [0, 1])]) := by
    intro i p hp
    have hp' : p ∈ [(("T" : String), [(1 : Nat)])] := hp
    rw [List.mem_singleton] at hp'
    subst hp'
    decide
  exact ⟨hwf, claim_C5_batch_get_retry_bounds _ _ hwf⟩

/-- Claim C10: if unprocessed keys still remain after the 10th
`batch_get_item` attempt, `batch_get` returns the items retrieved so far
without raising (a `some` result), and the returned dictionary always has
exactly the table-name keys of the original `batch_keys` argument. -/
theorem claim_C10_batch_get_partial_result (env : Nat → BGResponse)
    (batch_keys : List (String × List Nat))
    (hwf : envWF env ( keysOf batch_keys)) :
    ∃ res, batch_get env batch_keys = some res ∧
      keysOf res.retrieved = keysOf batch_keys ∧
      ((∀ i, (env i).unprocessedKeys ≠ []) → res.calls = 10) := by
  obtain ⟨res, hres, hkeys, hlt, hle, hsleeps, hretry, hall⟩ :=
    batchGetGo_spec env ( keysOf batch_keys) hwf 10 0 (by omega) (by omega)
      batch_keys (batch_keys.map (fun kv => (kv.1, ([] : List Nat)))) (keysOf_init batch_keys)
  exact ⟨res, hres, hkeys, hall⟩

/-- Claim C10, witness: the same always-unprocessed SDK; the loop exhausts
its 10 attempts and still returns a dict keyed by the original table. -/
theorem claim_C10_witness :
    DynamoDbService.envWF (fun _ => ⟨[("U", [1])], [("U", [0])]⟩)
      ( keysOf [("U", [0, 1])]) ∧
    (∃ res, batch_get (fun _ => ⟨[("U", [1])], [("U", [0])]⟩) [("U", [0, 1])] = some res ∧
      keysOf res.retrieved = keysOf [("U", [0, 1])] ∧
      ((∀ i : Nat,
          ((fun _ : Nat => (⟨[("U", [1])], [("U", [0])]⟩ : BGResponse)) i).unprocessedKeys ≠ []) →
        res.calls = 10)) := by
  have hwf : DynamoDbService.envWF (fun _ => ⟨[("U", [1])], [("U", [0])]⟩)
      ( keysOf [("U", [0, 1])]) := by
    intro i p hp
    have hp' : p ∈ [(("U" : String), [(1 : Nat)])] := hp
    rw [List.mem_singleton] at hp'
    subst hp'
    decide
  exact ⟨hwf, claim_C10_batch_get_partial_result _ _ hwf⟩

/-- Claim C6: for every finite sequence of paginated responses (first
carrying no `LastEvaluatedKey` at index `n`), `query_table` — and likewise
`scan_table` — returns the concatenation, in page order, of the `Items` of
every page; each request after the first carries `ExclusiveStartKey` equal
to the previous page's `LastEvaluatedKey` (the first request carries none),
and pagination stops exactly at the first page with no `LastEvaluatedKey`
(exactly `n + 1` requests are issued). -/
theorem claim_C6_pagination_collects_all_pages (env : Nat → Page) (n fuel : Nat)
    (hlast : (env n).lastEvaluatedKey = Option.none)
    (hbefore : ∀ i, i < n → (env i).lastEvaluatedKey ≠ Option.none)
    (hfuel : n < fuel) :
    query_table env fuel =
      some (((List.range (n + 1)).map (fun i => (env i).items)).flatten,
        Option.none :: (List.range n).map (fun i => (env i).lastEvaluatedKey)) ∧
    scan_table env fuel =
      some (((List.range (n + 1)).map (fun i => (env i).items)).flatten,
        Option.none :: (List.range n).map (fun i => (env i).lastEvaluatedKey)) := by
  have hq := queryGo_spec env n 0 Option.none fuel (by simpa using hlast)
    (by intro i hi; simpa using hbefore i hi) hfuel
  have hq' : query_table env fuel =
      some (((List.range (n + 1)).map (fun i => (env i).items)).flatten,
        Option.none :: (List.range n).map (fun i => (env i).lastEvaluatedKey)) := by
    rw [DynamoDbService.query_table, hq]
    simp [Nat.zero_add]
  refine ⟨hq', ?_⟩
  rw [DynamoDbService.scan_table, scanGo_eq_queryGo]
  exact hq'

/-- Claim C6, witness: three pages, the first two carrying a
`LastEvaluatedKey`. -/
theorem claim_C6_witness :
    ((fun i => if i < 2 then Page.mk [i] (some (i + 100)) else Page.mk [i] Option.none) 2).lastEvaluatedKey
        = Option.none ∧
    (∀ i, i < 2 →
      ((fun i => if i < 2 then Page.mk [i] (some (i + 100)) else Page.mk [i] Option.none) i).lastEvaluatedKey
        ≠ Option.none) ∧
    2 < 3 ∧
    (query_table (fun i => if i < 2 then Page.mk [i] (some (i + 100)) else Page.mk [i] Option.none) 3 =
      some (((List.range (2 + 1)).map (fun i =>
          ((fun i => if i < 2 then Page.mk [i] (some (i + 100)) else Page.mk [i] Option.none) i).items)).flatten,
        Option.none :: (List.range 2).map (fun i =>
          ((fun i => if i < 2 then Page.mk [i] (some (i + 100)) else Page.mk [i] Option.none) i).lastEvaluatedKey)) ∧
    scan_table (fun i => if i < 2 then Page.mk [i] (some (i + 100)) else Page.mk [i] Option.none) 3 =
      some (((List.range (2 + 1)).map (fun i =>
          ((fun i => if i < 2 then Page.mk [i] (some (i + 100)) else Page.mk [i] Option.none) i).items)).flatten,
        Option.none :: (List.range 2).map (fun i =>
          ((fun i => if i < 2 then Page.mk [i] (some (i + 100)) else Page.mk [i] Option.none) i).lastEvaluatedKey))) := by
  have hbefore : ∀ i, i < 2 →
      ((fun i => if i < 2 then Page.mk [i] (some (i + 100)) else Page.mk [i] Option.none) i).lastEvaluatedKey
        ≠ Option.none := by
    intro i hi
    have : i = 0 ∨ i = 1 := by omega
    rcases this with rfl | rfl <;> decide
  exact ⟨rfl, hbefore, by omega,
    claim_C6_pagination_collects_all_pages _ 2 3 rfl hbefore (by omega)⟩

/-- Claim C7: writing a string with `write_gzip_to_s3` and reading the same
bucket and key back with `read_gzip_object_from_s3` returns the string:
gzip compression followed by decompression, and UTF-8 encode followed by
decode, are identities on the stored content (the vendor-documented
inverse laws are the two hypotheses). -/
theorem claim_C7_gzip_round_trip (β : Type) (gzipCompress : String → β → β)
    (gzipDecompress : β → β) (utf8Encode : String → β) (utf8Decode : β → String)
    (hgzip : ∀ fname b, gzipDecompress (gzipCompress fname b) = b)
    (hutf8 : ∀ s, utf8Decode (utf8Encode s) = s)
    (store : Store β) (file_content s3_bucket file_key content_type : String) :
    read_gzip_object_from_s3 gzipDecompress utf8Decode
      ( write_gzip_to_s3 gzipCompress utf8Encode store file_content s3_bucket file_key
        content_type)
      s3_bucket file_key = some file_content := by
  rw [S3Service.read_gzip_object_from_s3, S3Service.write_gzip_to_s3]
  simp [hgzip, hutf8]

/-- Claim C7, witness: the trivial byte model (`β = String`, identity codec
and compressor) satisfies both inverse laws. -/
theorem claim_C7_witness :
    (∀ (fname : String) (b : String), id ((fun _ : String => fun b : String => b) fname b) = b) ∧
    (∀ s : String, id (id s) = s) ∧
    read_gzip_object_from_s3 (id : String → String) (id : String → String)
      ( write_gzip_to_s3 (fun _ : String => fun b : String => b) (id : String → String)
        (fun _ _ => Option.none) "hello" "bucket" "dir/f.csv" "text/csv")
      "bucket" "dir/f.csv" = some "hello" :=
  ⟨fun _ _ => rfl, fun _ => rfl,
    claim_C7_gzip_round_trip String (fun _ b => b) id id id (fun _ _ => rfl) (fun _ => rfl)
      (fun _ _ => Option.none) "hello" "bucket" "dir/f.csv" "text/csv"⟩

/-- Claim C8: on a 200 listing, `read_multiple_csv_from_s3` returns the
concatenation, in the order the objects are listed, of each object's csv
lines after discarding that object's first line, each remaining line parsed
by the `csv.DictReader` keyed by the given column names. -/
theorem claim_C8_read_multiple_csv (res : ListObjectsResponse)
    (getObject : String → String) (columns : List String)
    (h200 : res.httpStatusCode = 200) :
    read_multiple_csv_from_s3 res getObject columns =
      (res.contents.map (fun object_key =>
        dictRead columns ((pySplitlines (getObject object_key)).drop 1))).flatten := by
  rw [S3Service.read_multiple_csv_from_s3, if_pos h200, readMultipleCsvLoop_append]
  simp

/-- Claim C8, witness: two listed objects, each with a header line and one
data row. -/
theorem claim_C8_witness :
    (ListObjectsResponse.mk 200 ["f1", "f2"]).httpStatusCode = 200 ∧
    read_multiple_csv_from_s3 (ListObjectsResponse.mk 200 ["f1", "f2"])
        (fun k => if k = "f1" then "h1,h2\na,b" else "h1,h2\nc,d") ["x", "y"] =
      ((ListObjectsResponse.mk 200 ["f1", "f2"]).contents.map (fun object_key =>
        dictRead ["x", "y"]
          ((pySplitlines ((fun k => if k = "f1" then "h1,h2\na,b" else "h1,h2\nc,d") object_key)).drop 1))).flatten :=
  ⟨rfl, claim_C8_read_multiple_csv (ListObjectsResponse.mk 200 ["f1", "f2"])
    (fun k => if k = "f1" then "h1,h2\na,b" else "h1,h2\nc,d") ["x", "y"] rfl⟩

/-- Claim C9: when the `list_objects_v2` response carries a status code
other than 200, `list_objects_by_prefix` returns `None` rather than a list,
despite its declared list return type; it returns the response's `Contents`
only on status 200. -/
theorem claim_C9_list_objects_status (s3_results : ListObjectsResponse) :
    (s3_results.httpStatusCode = 200 →
       list_objects_by_prefix s3_results = some s3_results.contents) ∧
    (s3_results.httpStatusCode ≠ 200 →
       list_objects_by_prefix s3_results = Option.none) := by
  constructor
  · intro h
    rw [ S3Service.list_objects_by_prefix, if_pos h]
  · intro h
    rw [ S3Service.list_objects_by_prefix, if_neg h]

/-- Claim C9, witness: a 200 listing yields its `Contents`, a 500 listing
yields `None`. -/
theorem claim_C9_witness :
    list_objects_by_prefix (ListObjectsResponse.mk 200 ["a"]) = some ["a"] ∧
    list_objects_by_prefix (ListObjectsResponse.mk 500 ["a"]) = Option.none :=
  ⟨(claim_C9_list_objects_status (ListObjectsResponse.mk 200 ["a"])).1 rfl,
   (claim_C9_list_objects_status (ListObjectsResponse.mk 500 ["a"])).2 (by decide)⟩

end QuizAppBE
